import Mathlib

/-!
# Fluent Bit task core: result word encoding, retries and task lifecycle

A shallow embedding of `include/fluent-bit/flb_task.h`.

* The four helpers `FLB_TASK_RET`, `FLB_TASK_ID`, `FLB_TASK_TH` and
  `FLB_TASK_SET` are embedded from the header, operand by operand, on
  32-bit unsigned values (`Nat` with explicit reduction modulo `2^32`).
* The records `flb_task_route`, `flb_task_retry` and `flb_task` follow the
  struct declarations of the header.
* The header only declares `flb_task_create`, `flb_task_destroy`,
  `flb_task_retry_create`, `flb_task_retry_destroy` and
  `flb_task_retry_clean`; their bodies, and the operations `dispatch` and
  `apply_result` of the task lifecycle manager, are modelled from the
  specification and are marked as such. The manager is a total function of
  the registry: every result word has a defined effect.
-/

namespace FlbTask

/-! ## Result word encoding (from the header) -/

/-- Conversion to `uint32_t`: reduction modulo `2^32`. -/
def u32 (n : Nat) : Nat := n % 2 ^ 32

/-- `#define FLB_TASK_RET(val)  (val >> 28)` -/
def FLB_TASK_RET (val : Nat) : Nat := val >>> 28

/-- `#define FLB_TASK_ID(val)   (uint32_t) (val & 0xfffc000) >> 14`
(the cast binds tighter than the shift). -/
def FLB_TASK_ID (val : Nat) : Nat := u32 (val &&& 0xfffc000) >>> 14

/-- `#define FLB_TASK_TH(val)   (val & 0x3fff)` -/
def FLB_TASK_TH (val : Nat) : Nat := val &&& 0x3fff

/-- `#define FLB_TASK_SET(ret, task_id, th_id)
    (uint32_t) ((ret << 28) | (task_id << 14) | th_id)`
with `uint32_t` operands: each left shift is reduced modulo `2^32`, as is the
final cast. -/
def FLB_TASK_SET (ret task_id th_id : Nat) : Nat :=
  u32 (u32 (ret <<< 28) ||| u32 (task_id <<< 14) ||| th_id)

/-! ## Data model (from the header) -/

/-- `#define FLB_TASK_NEW      0` -/
def FLB_TASK_NEW : Int := 0

/-- `#define FLB_TASK_RUNNING  1` -/
def FLB_TASK_RUNNING : Int := 1

/-- `struct flb_task_route`. The pointer `out` is kept as the address of the
output instance; the link `_head` is the position in the list holding the
record. -/
structure flb_task_route where
  out : Nat
deriving DecidableEq

/-- `struct flb_task_retry`. `attemps` is the C `int` counter (spelling of the
header), `o_ins` the address of the output instance being retried, `parent`
the id of the parent task. -/
structure flb_task_retry where
  attemps : Int
  o_ins : Nat
  parent : Int
deriving DecidableEq

/-- Modelled from the spec: the element type of `flb_task.threads` is not
declared in the header. A delivery unit carries the thread/route index that
its result word reports and the destination it delivers to. -/
structure flb_thread where
  id : Nat
  o_ins : Nat
deriving DecidableEq

/-- `struct flb_task`, without the fields under `FLB_HAVE_BUFFERING` and
`FLB_HAVE_FLUSH_PTHREADS`. C `int` fields are `Int`, pointers are addresses,
`char *` buffers are byte lists, the three `mk_list` heads are lists. -/
structure flb_task where
  id : Int
  ref_id : Nat
  status : Int
  mapped : Int
  deleted : Int
  n_threads : Int
  users : Int
  destinations : Int
  tag : List Nat
  buf : List Nat
  size : Nat
  dt : Nat
  i_ins : Nat
  threads : List flb_thread
  routes : List flb_task_route
  retries : List flb_task_retry
  config : Nat
deriving DecidableEq

/-- Modelled from the spec: the outcome a delivery unit reports (section 6 of
the specification: OK, ERROR_RETRYABLE, ERROR_PERMANENT); the enum is not in the
header. -/
inductive flb_outcome where
  | OK
  | ERROR_RETRYABLE
  | ERROR_PERMANENT
deriving DecidableEq

/-- Modelled from the spec: `struct flb_config` is not in the header. Only what
the task core reads is kept: the attempt ceiling, the outcome each of the 16
result codes stands for (the enum is implementation-defined; `none` for a code
outside it), and whether this is a debug build. -/
structure flb_config where
  retry_limit : Int
  outcome : Nat → Option flb_outcome
  debug : Bool

/-! ## Retry queue -/

/-- Modelled from the spec: list walk of `flb_task_retry_create` (body not in
the header), looking for the entry of destination `data`; the first such entry
has its attempt counter incremented in place. Returns the incremented entry and
the updated list, or `none` when no entry matches. -/
def retry_increment (data : Nat) :
    List flb_task_retry → Option (flb_task_retry × List flb_task_retry)
  | [] => none
  | r :: rs =>
    if r.o_ins = data then
      some ({ r with attemps := r.attemps + 1 }, { r with attemps := r.attemps + 1 } :: rs)
    else
      match retry_increment data rs with
      | some (x, rs1) => some (x, r :: rs1)
      | none => none

/-- Modelled from the spec: the body of `flb_task_retry_create` is not in the
header. "Returns an existing Retry for the (task, destination) pair with its
attempt counter incremented if one exists, otherwise creates a new Retry with
attempt = 1." A new entry is linked at the tail of the retries list. Returns
the retry and the updated task. -/
def flb_task_retry_create (task : flb_task) (data : Nat) : flb_task_retry × flb_task :=
  match retry_increment data task.retries with
  | some (r, rs) => (r, { task with retries := rs })
  | none =>
    ({ attemps := 1, o_ins := data, parent := task.id },
     { task with retries := task.retries ++ [{ attemps := 1, o_ins := data, parent := task.id }] })

/-- Modelled from the spec: the body of `flb_task_retry_destroy` is not in the
header. "Detaches from the parent Task's retry collection and releases it." -/
def flb_task_retry_destroy (task : flb_task) (retry : flb_task_retry) : flb_task :=
  { task with retries := task.retries.erase retry }

/-- Modelled from the spec: loop of `flb_task_retry_clean` (body not in the
header) over the retries list: entries whose destination is `data` are unlinked
and counted, the others are kept. -/
def retry_clean_loop (data : Nat) : List flb_task_retry → List flb_task_retry × Int
  | [] => ([], 0)
  | r :: rs =>
    if r.o_ins = data then
      ((retry_clean_loop data rs).1, (retry_clean_loop data rs).2 + 1)
    else
      (r :: (retry_clean_loop data rs).1, (retry_clean_loop data rs).2)

/-- Modelled from the spec: the body of `flb_task_retry_clean` is not in the
header. "Removes and releases every Retry attached to task whose associated
delivery context matches data; returns the count removed." Returns the count
and the updated task. -/
def flb_task_retry_clean (task : flb_task) (data : Nat) : Int × flb_task :=
  ((retry_clean_loop data task.retries).2,
   { task with retries := (retry_clean_loop data task.retries).1 })

/-- Modelled from the spec: attempt count recorded for destination `data`, used
by `apply_result` (not in the header) against the attempt ceiling; 0 when the
destination has no retry. -/
def retry_attempts (data : Nat) : List flb_task_retry → Int
  | [] => 0
  | r :: rs => if r.o_ins = data then r.attemps else retry_attempts data rs

/-! ## Route table -/

/-- Modelled from the spec: `compute_routes` expands an explicit list of
output destinations into Route records, keeping registration order and
dropping a destination that already appeared. -/
def compute_routes (dests : List Nat) : List flb_task_route :=
  dests.eraseDups.map (fun d => { out := d })

/-- Modelled from the spec: route removal of `apply_result` (not in the
header). Unlinks the first route whose destination is `out`; `none` when the
list holds no such route. -/
def route_remove (out : Nat) : List flb_task_route → Option (List flb_task_route)
  | [] => none
  | r :: rs =>
    if r.out = out then some rs
    else
      match route_remove out rs with
      | some rs1 => some (r :: rs1)
      | none => none

/-- Modelled from the spec: delivery units scheduled by `dispatch` (not in the
header), one per route, numbered by the ordinal of the route. -/
def dispatch_units : Nat → List flb_task_route → List flb_thread
  | _, [] => []
  | i, r :: rs => { id := i, o_ins := r.out } :: dispatch_units (i + 1) rs

/-- Modelled from the spec: lookup done by `apply_result` (not in the header)
of the first delivery unit carrying thread index `th`. -/
def thread_find (th : Nat) : List flb_thread → Option flb_thread
  | [] => none
  | u :: us => if u.id = th then some u else thread_find th us

/-! ## Task registry -/

/-- Modelled from the spec: registry lookup (the registry code is not in the
header). The live task registered under `id`, if any. -/
def task_lookup (reg : List flb_task) (id : Nat) : Option flb_task :=
  match reg with
  | [] => none
  | t :: ts => if t.id = (id : Int) then some t else task_lookup ts id

/-- Modelled from the spec: registry update (the registry code is not in the
header). Writes the record `t` back into its registry slot. -/
def task_store (reg : List flb_task) (t : flb_task) : List flb_task :=
  reg.map (fun x => if x.id = t.id then t else x)

/-- Modelled from the spec: registry removal (the registry code is not in the
header). Removes the task registered under `id`. -/
def task_unlink (reg : List flb_task) (id : Int) : List flb_task :=
  reg.filter (fun x => decide (x.id ≠ id))

/-- Modelled from the spec: id allocation of `flb_task_create` (body not in the
header). Scan for the lowest task id not in use, starting at `i`, over `fuel`
candidate ids. -/
def map_get_task_id_from (reg : List flb_task) : Nat → Nat → Option Nat
  | 0, _ => none
  | fuel + 1, i =>
    match task_lookup reg i with
    | none => some i
    | some _ => map_get_task_id_from reg fuel (i + 1)

/-- Modelled from the spec: id allocation of `flb_task_create` (body not in the
header). Fresh task id among the 16384 ids a result word can carry. -/
def map_get_task_id (reg : List flb_task) : Option Nat :=
  map_get_task_id_from reg 16384 0

/-! ## Task lifecycle manager -/

/-- Modelled from the spec: record built by `flb_task_create` (body not in the
header) for a new task: status NEW, no user, one pending destination
per route. -/
def task_init (id : Nat) (ref_id : Nat) (buf : List Nat) (size : Nat)
    (i_ins dt : Nat) (tag : List Nat) (config : Nat) (routes : List flb_task_route) :
    flb_task :=
  { id := (id : Int), ref_id := ref_id, status := FLB_TASK_NEW, mapped := 0,
    deleted := 0, n_threads := 0, users := 0,
    destinations := (routes.length : Int),
    tag := tag, buf := buf, size := size, dt := dt, i_ins := i_ins,
    threads := [], routes := routes, retries := [], config := config }

/-- Modelled from the spec: the body of `flb_task_create` is not in the
header. "Allocates a Task with a fresh unique id, takes ownership of buffer,
computes the Route Table from destination_set, sets status NEW,
destinations = |routes|, users = 0"; fails (NULL) when no id can be assigned or
when the routes do not fit the 16384 route indexes. Returns the task and the
registry holding it. -/
def flb_task_create (reg : List flb_task) (ref_id : Nat) (buf : List Nat) (size : Nat)
    (i_ins dt : Nat) (tag : List Nat) (config : Nat) (dests : List Nat) :
    Option (flb_task × List flb_task) :=
  match map_get_task_id reg with
  | none => none
  | some id =>
    if 16384 < (compute_routes dests).length then none
    else
      some (task_init id ref_id buf size i_ins dt tag config (compute_routes dests),
            reg ++ [task_init id ref_id buf size i_ins dt tag config (compute_routes dests)])

/-- Modelled from the spec: `dispatch(task)`, whose code is not in the header.
"For each Route, schedules one delivery unit against the target destination,
increments users and n_threads. Status transitions NEW → RUNNING on the first
dispatch." A task marked `deleted` is refused. -/
def dispatch (task : flb_task) : flb_task :=
  if task.deleted ≠ 0 then task
  else
    { task with
      status := FLB_TASK_RUNNING,
      threads := task.threads ++ dispatch_units 0 task.routes,
      users := task.users + (task.routes.length : Int),
      n_threads := task.n_threads + (task.routes.length : Int) }

/-- Modelled from the spec: release of a task by `flb_task_destroy` (body not in
the header): the task, with its buffer, tag, routes and retries, leaves the
registry. -/
def task_release (reg : List flb_task) (task : flb_task) : List flb_task :=
  task_unlink reg task.id

/-- Modelled from the spec: the body of `flb_task_destroy` is not in the
header. With `users == 0 && destinations == 0` the task is released. With a
nonzero counter the call is fatal in a debug build (`none`) and in a release
build "sets deleted = true and defers". -/
def flb_task_destroy (cfg : flb_config) (reg : List flb_task) (task : flb_task) :
    Option (List flb_task) :=
  if task.users = 0 ∧ task.destinations = 0 then some (task_release reg task)
  else if cfg.debug then none
  else some (task_store reg { task with deleted := 1 })

/-- Modelled from the spec: completion of a delivery unit in `apply_result`
(not in the header). The unit no longer holds a reference: `users` is
decremented and the unit leaves the in-flight list. -/
def thread_done (task : flb_task) (u : flb_thread) : flb_task :=
  { task with users := task.users - 1, threads := task.threads.erase u }

/-- Modelled from the spec: terminal resolution of a route in `apply_result`
(not in the header). The Route is "removed (and destinations decremented) when
that destination's delivery resolves terminally"; when the route of that
destination was resolved before, no route is left to resolve and the task is
unchanged. -/
def route_resolve (task : flb_task) (out : Nat) : flb_task :=
  match route_remove out task.routes with
  | some rest => { task with routes := rest, destinations := task.destinations - 1 }
  | none => task

/-- Modelled from the spec: purge of the retries of a task whose destruction
was deferred (section 5: "any remaining Retry entries are purged via
retry_clean rather than acted upon"); `flb_task_retry_clean` is called for the
destination of every queued retry. -/
def retries_purge (task : flb_task) : flb_task :=
  task.retries.foldl (fun t r => (flb_task_retry_clean t r.o_ins).2) task

/-- Modelled from the spec: the update of `apply_result` (not in the header) on
the task the word addresses, for result code `ret` and thread/route index `th`.
* OK: "decrements users and destinations for that route, removes the matching
  Route" (and the retry of that destination is consumed).
* ERROR_RETRYABLE with retries remaining: "decrements users,
  creates-or-increments a Retry entry for that destination (does not decrement
  destinations)".
* ERROR_RETRYABLE with retries exhausted, and ERROR_PERMANENT: "decrements
  users and destinations, removes the Retry entry, the route terminally fails".
The word is dropped (`none`, no update) when it is stale, that is when no
delivery unit in flight carries the index, and when its code is outside the
enum, so that no clause applies. -/
def apply_update (cfg : flb_config) (task : flb_task) (ret th : Nat) : Option flb_task :=
  match thread_find th task.threads with
  | none => none
  | some u =>
    match cfg.outcome ret with
    | none => none
    | some .OK =>
      some (route_resolve (flb_task_retry_clean (thread_done task u) u.o_ins).2 u.o_ins)
    | some .ERROR_RETRYABLE =>
      if retry_attempts u.o_ins task.retries < cfg.retry_limit then
        some (flb_task_retry_create (thread_done task u) u.o_ins).2
      else
        some (route_resolve (flb_task_retry_clean (thread_done task u) u.o_ins).2 u.o_ins)
    | some .ERROR_PERMANENT =>
      some (route_resolve (flb_task_retry_clean (thread_done task u) u.o_ins).2 u.o_ins)

/-- Modelled from the spec: `apply_result(encoded_word)`, not in the header.
Decodes the word with the `FLB_TASK_*` helpers and looks the task up by id; a
word for a task that no longer exists, and a dropped word, leave the registry
as it is. After an update, "if users == 0 && destinations == 0, destroys the
Task"; a task marked `deleted` whose `users` reached zero has its deferred
destruction carried out (section 5): its retries are purged and it is
released. -/
def apply_result (cfg : flb_config) (reg : List flb_task) (word : Nat) :
    Option (List flb_task) :=
  match task_lookup reg (FLB_TASK_ID word) with
  | none => some reg
  | some task =>
    match apply_update cfg task (FLB_TASK_RET word) (FLB_TASK_TH word) with
    | none => some reg
    | some t1 =>
      if t1.users = 0 ∧ t1.destinations = 0 then
        flb_task_destroy cfg (task_store reg t1) t1
      else if t1.deleted ≠ 0 ∧ t1.users = 0 then
        some (task_release (task_store reg (retries_purge t1)) (retries_purge t1))
      else some (task_store reg t1)

/-- Modelled from the spec: the operations of the task lifecycle manager (its
code is not in the header). -/
inductive engine_op where
  | create (ref_id : Nat) (buf : List Nat) (size : Nat) (i_ins dt : Nat)
      (tag : List Nat) (config : Nat) (dests : List Nat)
  | dispatch (task_id : Nat)
  | result (word : Nat)
  | destroy (task_id : Nat)
deriving DecidableEq

/-- Modelled from the spec: one operation of the task lifecycle manager on the
registry. A failed `create` leaves the registry unchanged; `dispatch` and
`destroy` naming an id with no live task have no task to act on. The result is
`none` only for the fatal abort of a debug build. -/
def engine_step (cfg : flb_config) (reg : List flb_task) : engine_op → Option (List flb_task)
  | .create ref_id buf size i_ins dt tag config dests =>
    match flb_task_create reg ref_id buf size i_ins dt tag config dests with
    | some (_, reg1) => some reg1
    | none => some reg
  | .dispatch task_id =>
    match task_lookup reg task_id with
    | some t => some (task_store reg (dispatch t))
    | none => some reg
  | .result word => apply_result cfg reg word
  | .destroy task_id =>
    match task_lookup reg task_id with
    | some t => flb_task_destroy cfg reg t
    | none => some reg

/-- Modelled from the spec: a sequence of operations of the task lifecycle
manager, run in order. A fatal abort ends the run with the registry as it
was. -/
def engine_run (cfg : flb_config) : List flb_task → List engine_op → List flb_task
  | reg, [] => reg
  | reg, op :: ops =>
    match engine_step cfg reg op with
    | some reg1 => engine_run cfg reg1 ops
    | none => reg

/-! ## Sample inputs -/

/-- A release-build configuration: attempt ceiling 1, code 1 is OK, code 2 is
ERROR_RETRYABLE, code 0 is ERROR_PERMANENT, the other codes are outside the
enum. -/
def sample_cfg : flb_config :=
  { retry_limit := 1,
    outcome := fun c =>
      if c = 1 then some .OK
      else if c = 2 then some .ERROR_RETRYABLE
      else if c = 0 then some .ERROR_PERMANENT
      else none,
    debug := false }

/-- A task with one queued retry, for destination 9. -/
def sample_retry_task : flb_task :=
  { task_init 3 0 [104] 1 0 0 [97] 0 [{ out := 9 }] with
    retries := [{ attemps := 4, o_ins := 9, parent := 3 }] }

/-- A run of the manager: a task routed to 7 and 9 is dispatched; 7 fails and is
queued for retry; after a second dispatch two units deliver to 9 and both
succeed; then come a word with a code outside the enum and a word with a stale
thread index. -/
def sample_ops : List engine_op :=
  [.create 0 [104, 105] 2 0 0 [97] 0 [7, 9, 9], .dispatch 0,
   .result 0x20000000, .dispatch 0, .result 0x10000001, .result 0x10000001,
   .result 0x50000000, .result 0x10000005]

theorem shiftRight_and (a b k : Nat) : (a &&& b) >>> k = (a >>> k) &&& (b >>> k) := by
  apply Nat.eq_of_testBit_eq
  intro j
  simp [Nat.testBit_shiftRight, Nat.testBit_and]

theorem shiftLeft_and_small (a b k : Nat) (hb : b < 2 ^ k) : (a <<< k) &&& b = 0 := by
  apply Nat.eq_of_testBit_eq
  intro j
  rw [Nat.testBit_and, Nat.testBit_shiftLeft, Nat.zero_testBit]
  by_cases hj : k ≤ j
  · have : b.testBit j = false :=
      Nat.testBit_lt_two_pow (lt_of_lt_of_le hb (Nat.pow_le_pow_right (by decide) hj))
    simp [this]
  · simp [hj]

theorem ret_eq (w : Nat) : FLB_TASK_RET w = w / 2 ^ 28 := by
  unfold FLB_TASK_RET
  exact Nat.shiftRight_eq_div_pow w 28

theorem id_eq (w : Nat) : FLB_TASK_ID w = (w / 2 ^ 14) % 2 ^ 14 := by
  have hlt : w &&& 0xfffc000 < 2 ^ 32 :=
    lt_of_le_of_lt Nat.and_le_right (by norm_num)
  unfold FLB_TASK_ID u32
  rw [Nat.mod_eq_of_lt hlt, shiftRight_and, Nat.shiftRight_eq_div_pow w 14]
  have hm : (0xfffc000 : Nat) >>> 14 = 2 ^ 14 - 1 := by decide
  rw [hm, Nat.and_pow_two_sub_one_eq_mod]

theorem th_eq (w : Nat) : FLB_TASK_TH w = w % 2 ^ 14 := by
  unfold FLB_TASK_TH
  have hm : (0x3fff : Nat) = 2 ^ 14 - 1 := by decide
  rw [hm, Nat.and_pow_two_sub_one_eq_mod]

theorem set_or_eq (c t h : Nat) (hc : c < 16) (ht : t < 16384) :
    FLB_TASK_SET c t h = u32 ((c <<< 28) ||| (t <<< 14) ||| h) := by
  unfold FLB_TASK_SET u32
  rw [Nat.shiftLeft_eq, Nat.shiftLeft_eq]
  have h1 : c * 2 ^ 28 % 2 ^ 32 = c * 2 ^ 28 := by omega
  have h2 : t * 2 ^ 14 % 2 ^ 32 = t * 2 ^ 14 := by omega
  rw [h1, h2]

theorem or_eq_sum (c t h : Nat) (ht : t < 16384) (hh : h < 16384) :
    (c <<< 28) ||| (t <<< 14) ||| h = c * 2 ^ 28 + t * 2 ^ 14 + h := by
  rw [Nat.shiftLeft_eq, Nat.shiftLeft_eq, Nat.lor_assoc]
  have e1 : c * 2 ^ 28 = 2 ^ 28 * c := Nat.mul_comm _ _
  have e2 : t * 2 ^ 14 = 2 ^ 14 * t := Nat.mul_comm _ _
  have hh2 : h < 2 ^ 14 := by omega
  have h3 : 2 ^ 14 * t + h < 2 ^ 28 := by omega
  rw [e1, e2, ← Nat.mul_add_lt_is_or hh2 t, ← Nat.mul_add_lt_is_or h3 c]
  omega

theorem set_eq (c t h : Nat) (hc : c < 16) (ht : t < 16384) (hh : h < 16384) :
    FLB_TASK_SET c t h = c * 2 ^ 28 + t * 2 ^ 14 + h := by
  rw [set_or_eq c t h hc ht, or_eq_sum c t h ht hh]
  unfold u32
  omega

theorem decode_set (c t h : Nat) (hc : c < 16) (ht : t < 16384) (hh : h < 16384) :
    FLB_TASK_RET (FLB_TASK_SET c t h) = c ∧
    FLB_TASK_ID (FLB_TASK_SET c t h) = t ∧
    FLB_TASK_TH (FLB_TASK_SET c t h) = h := by
  rw [ret_eq, id_eq, th_eq, set_eq c t h hc ht hh]
  refine ⟨?_, ?_, ?_⟩ <;> omega

theorem decode_bounds (w : Nat) (hw : w < 2 ^ 32) :
    FLB_TASK_RET w < 16 ∧ FLB_TASK_ID w < 16384 ∧ FLB_TASK_TH w < 16384 := by
  rw [ret_eq, id_eq, th_eq]
  refine ⟨?_, ?_, ?_⟩ <;> omega

/-! ## Helper lemmas on the retry queue -/

theorem retry_increment_none (data : Nat) (l : List flb_task_retry)
    (h : ∀ r ∈ l, r.o_ins ≠ data) : retry_increment data l = none := by
  induction l with
  | nil => rfl
  | cons r rs ih =>
    have hr : r.o_ins ≠ data := h r (List.mem_cons_self r rs)
    have hrs : ∀ x ∈ rs, x.o_ins ≠ data := fun x hx => h x (List.mem_cons_of_mem r hx)
    simp [retry_increment, hr, ih hrs]

theorem retry_increment_last (data : Nat) (l : List flb_task_retry) (r : flb_task_retry)
    (h : ∀ x ∈ l, x.o_ins ≠ data) (hr : r.o_ins = data) :
    retry_increment data (l ++ [r]) =
      some ({ r with attemps := r.attemps + 1 }, l ++ [{ r with attemps := r.attemps + 1 }]) := by
  induction l with
  | nil => simp [retry_increment, hr]
  | cons x xs ih =>
    have hx : x.o_ins ≠ data := h x (List.mem_cons_self x xs)
    have hxs : ∀ y ∈ xs, y.o_ins ≠ data := fun y hy => h y (List.mem_cons_of_mem x hy)
    simp [retry_increment, hx, ih hxs]

theorem retry_clean_loop_fst (data : Nat) (l : List flb_task_retry) :
    (retry_clean_loop data l).1 = l.filter (fun r => decide (r.o_ins ≠ data)) := by
  induction l with
  | nil => rfl
  | cons r rs ih =>
    by_cases hr : r.o_ins = data
    · simp [retry_clean_loop, hr, ih]
    · simp [retry_clean_loop, hr, ih]

theorem retry_clean_loop_snd (data : Nat) (l : List flb_task_retry) :
    (retry_clean_loop data l).2 =
      ((l.filter (fun r => decide (r.o_ins = data))).length : Int) := by
  induction l with
  | nil => rfl
  | cons r rs ih =>
    by_cases hr : r.o_ins = data
    · simp [retry_clean_loop, hr, ih]
    · simp [retry_clean_loop, hr, ih]

theorem filter_split_length (data : Nat) (l : List flb_task_retry) :
    (l.filter (fun r => decide (r.o_ins = data))).length +
      (l.filter (fun r => decide (r.o_ins ≠ data))).length = l.length := by
  induction l with
  | nil => rfl
  | cons r rs ih =>
    by_cases hr : r.o_ins = data
    · simp [hr] at ih ⊢; omega
    · simp [hr] at ih ⊢; omega


/-! ## Registry lemmas -/

theorem task_lookup_some (reg : List flb_task) (i : Nat) (t : flb_task)
    (h : task_lookup reg i = some t) : t.id = (i : Int) ∧ t ∈ reg := by
  induction reg with
  | nil => simp [task_lookup] at h
  | cons x xs ih =>
    unfold task_lookup at h
    by_cases hx : x.id = (i : Int)
    · rw [if_pos hx] at h
      cases h
      exact ⟨hx, List.mem_cons_self _ _⟩
    · rw [if_neg hx] at h
      exact ⟨(ih h).1, List.mem_cons_of_mem _ (ih h).2⟩

theorem route_remove_length (out : Nat) (l l1 : List flb_task_route)
    (h : route_remove out l = some l1) : l.length = l1.length + 1 := by
  induction l generalizing l1 with
  | nil => simp [route_remove] at h
  | cons r rs ih =>
    unfold route_remove at h
    by_cases hr : r.out = out
    · rw [if_pos hr] at h
      cases h
      rfl
    · rw [if_neg hr] at h
      cases hrec : route_remove out rs with
      | none => rw [hrec] at h; cases h
      | some rs1 =>
        rw [hrec] at h
        cases h
        simp [ih rs1 hrec]

theorem retry_create_frame (task : flb_task) (data : Nat) :
    (flb_task_retry_create task data).2.id = task.id ∧
    (flb_task_retry_create task data).2.routes = task.routes ∧
    (flb_task_retry_create task data).2.destinations = task.destinations ∧
    (flb_task_retry_create task data).2.users = task.users := by
  unfold flb_task_retry_create
  cases retry_increment data task.retries with
  | none => exact ⟨rfl, rfl, rfl, rfl⟩
  | some p => exact ⟨rfl, rfl, rfl, rfl⟩

theorem route_resolve_id (t : flb_task) (out : Nat) : (route_resolve t out).id = t.id := by
  unfold route_resolve
  split <;> rfl

theorem route_resolve_inv (t : flb_task) (out : Nat)
    (hinv : t.destinations = (t.routes.length : Int)) :
    (route_resolve t out).destinations = ((route_resolve t out).routes.length : Int) := by
  unfold route_resolve
  split
  · rename_i rest hrest
    have hlen := route_remove_length _ _ _ hrest
    show t.destinations - 1 = (rest.length : Int)
    omega
  · exact hinv

theorem apply_update_id (cfg : flb_config) (t t1 : flb_task) (ret th : Nat)
    (h : apply_update cfg t ret th = some t1) : t1.id = t.id := by
  unfold apply_update at h
  split at h
  · cases h
  · rename_i u hu
    split at h
    · cases h
    · cases h
      rw [route_resolve_id]
      rfl
    · split at h
      · cases h
        rw [(retry_create_frame _ _).1]
        rfl
      · cases h
        rw [route_resolve_id]
        rfl
    · cases h
      rw [route_resolve_id]
      rfl

theorem apply_update_inv (cfg : flb_config) (t t1 : flb_task) (ret th : Nat)
    (h : apply_update cfg t ret th = some t1)
    (hinv : t.destinations = (t.routes.length : Int)) :
    t1.destinations = (t1.routes.length : Int) := by
  have hclean : ∀ (u : flb_thread) (d : Nat),
      (flb_task_retry_clean (thread_done t u) d).2.destinations
        = ((flb_task_retry_clean (thread_done t u) d).2.routes.length : Int) := fun _ _ => hinv
  unfold apply_update at h
  split at h
  · cases h
  · rename_i u hu
    split at h
    · cases h
    · cases h
      exact route_resolve_inv _ _ (hclean u u.o_ins)
    · split at h
      · cases h
        rw [(retry_create_frame _ _).2.1, (retry_create_frame _ _).2.2.1]
        exact hinv
      · cases h
        exact route_resolve_inv _ _ (hclean u u.o_ins)
    · cases h
      exact route_resolve_inv _ _ (hclean u u.o_ins)

theorem dispatch_inv (t : flb_task)
    (hinv : t.destinations = (t.routes.length : Int)) :
    (dispatch t).destinations = ((dispatch t).routes.length : Int) := by
  unfold dispatch
  split
  · exact hinv
  · exact hinv

theorem dispatch_id (t : flb_task) : (dispatch t).id = t.id := by
  unfold dispatch
  split <;> rfl

/-! ## Lemmas on the registry along a run -/

theorem task_store_mem (reg : List flb_task) (t x : flb_task) (hx : x ∈ task_store reg t) :
    (x = t ∧ ∃ y ∈ reg, y.id = t.id) ∨ (x ∈ reg ∧ x.id ≠ t.id) := by
  unfold task_store at hx
  rw [List.mem_map] at hx
  obtain ⟨y, hy, hxy⟩ := hx
  by_cases hyt : y.id = t.id
  · rw [if_pos hyt] at hxy
    exact Or.inl ⟨hxy.symm, y, hy, hyt⟩
  · rw [if_neg hyt] at hxy
    exact Or.inr ⟨hxy ▸ hy, hxy ▸ hyt⟩

theorem task_unlink_mem (reg : List flb_task) (j : Int) (x : flb_task)
    (hx : x ∈ task_unlink reg j) : x ∈ reg ∧ x.id ≠ j := by
  unfold task_unlink at hx
  rw [List.mem_filter] at hx
  exact ⟨hx.1, by simpa using hx.2⟩

theorem task_store_ids (reg : List flb_task) (t : flb_task) :
    (task_store reg t).map (fun x => x.id) = reg.map (fun x => x.id) := by
  unfold task_store
  rw [List.map_map]
  apply List.map_congr_left
  intro x _
  by_cases hx : x.id = t.id
  · simp [hx]
  · simp [hx]

theorem task_unlink_nodup (reg : List flb_task) (j : Int)
    (h : (reg.map (fun x => x.id)).Nodup) :
    ((task_unlink reg j).map (fun x => x.id)).Nodup := by
  unfold task_unlink
  exact List.Nodup.sublist (List.Sublist.map _ (List.filter_sublist reg)) h

theorem task_lookup_none (reg : List flb_task) (i : Nat) :
    task_lookup reg i = none ↔ ∀ x ∈ reg, x.id ≠ (i : Int) := by
  induction reg with
  | nil => simp [task_lookup]
  | cons y ys ih =>
    unfold task_lookup
    by_cases hy : y.id = (i : Int)
    · rw [if_pos hy]
      constructor
      · intro h; cases h
      · intro h; exact absurd hy (h y (List.mem_cons_self _ _))
    · rw [if_neg hy, ih]
      constructor
      · intro h x hx
        rcases List.mem_cons.mp hx with hxy | hxy
        · rw [hxy]; exact hy
        · exact h x hxy
      · intro h x hx
        exact h x (List.mem_cons_of_mem _ hx)

theorem map_get_task_id_from_free (reg : List flb_task) (fuel i n : Nat)
    (h : map_get_task_id_from reg fuel i = some n) : task_lookup reg n = none := by
  induction fuel generalizing i with
  | zero => simp [map_get_task_id_from] at h
  | succ k ih =>
    unfold map_get_task_id_from at h
    split at h
    · rename_i hfree
      cases h
      exact hfree
    · exact ih (i + 1) h

theorem flb_task_create_reg (reg reg1 : List flb_task) (t : flb_task)
    (ref_id : Nat) (buf : List Nat) (size i_ins dt : Nat) (tag : List Nat) (config : Nat)
    (dests : List Nat)
    (h : flb_task_create reg ref_id buf size i_ins dt tag config dests = some (t, reg1)) :
    reg1 = reg ++ [t] ∧ t.destinations = (t.routes.length : Int) ∧
      ∃ n : Nat, t.id = (n : Int) ∧ task_lookup reg n = none := by
  unfold flb_task_create at h
  split at h
  · cases h
  · rename_i n hn
    split at h
    · cases h
    · cases h
      exact ⟨rfl, rfl, n, rfl, map_get_task_id_from_free reg _ _ n hn⟩

theorem engine_step_wf (cfg : flb_config) (reg reg1 : List flb_task) (op : engine_op)
    (h : engine_step cfg reg op = some reg1)
    (hnd : (reg.map (fun x => x.id)).Nodup)
    (hnat : ∀ x ∈ reg, ∃ n : Nat, x.id = (n : Int))
    (hinv : ∀ x ∈ reg, x.destinations = (x.routes.length : Int)) :
    (reg1.map (fun x => x.id)).Nodup ∧
    (∀ x ∈ reg1, ∃ n : Nat, x.id = (n : Int)) ∧
    (∀ x ∈ reg1, x.destinations = (x.routes.length : Int)) := by
  have hstore : ∀ t : flb_task, t.destinations = (t.routes.length : Int) →
      ((task_store reg t).map (fun x => x.id)).Nodup ∧
      (∀ x ∈ task_store reg t, ∃ n : Nat, x.id = (n : Int)) ∧
      (∀ x ∈ task_store reg t, x.destinations = (x.routes.length : Int)) := by
    intro t ht
    refine ⟨by rw [task_store_ids]; exact hnd, ?_, ?_⟩
    · intro x hx
      rcases task_store_mem reg t x hx with ⟨hxt, y, hy, hyt⟩ | ⟨hxr, _⟩
      · obtain ⟨n, hn⟩ := hnat y hy
        exact ⟨n, by rw [hxt, ← hyt, hn]⟩
      · exact hnat x hxr
    · intro x hx
      rcases task_store_mem reg t x hx with ⟨hxt, _⟩ | ⟨hxr, _⟩
      · rw [hxt]; exact ht
      · exact hinv x hxr
  have hunlink : ∀ (r : List flb_task) (j : Int),
      ((r.map (fun x => x.id)).Nodup ∧
        (∀ x ∈ r, ∃ n : Nat, x.id = (n : Int)) ∧
        (∀ x ∈ r, x.destinations = (x.routes.length : Int))) →
      (((task_unlink r j).map (fun x => x.id)).Nodup ∧
        (∀ x ∈ task_unlink r j, ∃ n : Nat, x.id = (n : Int)) ∧
        (∀ x ∈ task_unlink r j, x.destinations = (x.routes.length : Int))) := by
    intro r j hr
    exact ⟨task_unlink_nodup r j hr.1,
      fun x hx => hr.2.1 x (task_unlink_mem r j x hx).1,
      fun x hx => hr.2.2 x (task_unlink_mem r j x hx).1⟩
  have hdestroy : ∀ (r r1 : List flb_task) (t : flb_task),
      flb_task_destroy cfg r t = some r1 →
      ((r.map (fun x => x.id)).Nodup ∧
        (∀ x ∈ r, ∃ n : Nat, x.id = (n : Int)) ∧
        (∀ x ∈ r, x.destinations = (x.routes.length : Int))) →
      (∀ s : flb_task, s.destinations = (s.routes.length : Int) →
        ((task_store r s).map (fun x => x.id)).Nodup ∧
        (∀ x ∈ task_store r s, ∃ n : Nat, x.id = (n : Int)) ∧
        (∀ x ∈ task_store r s, x.destinations = (x.routes.length : Int))) →
      t.destinations = (t.routes.length : Int) →
      ((r1.map (fun x => x.id)).Nodup ∧
        (∀ x ∈ r1, ∃ n : Nat, x.id = (n : Int)) ∧
        (∀ x ∈ r1, x.destinations = (x.routes.length : Int))) := by
    intro r r1 t hd hr hs ht
    unfold flb_task_destroy at hd
    split at hd
    · cases hd
      exact hunlink r t.id hr
    · split at hd
      · cases hd
      · cases hd
        exact hs _ ht
  cases op with
  | create ref_id buf size i_ins dt tag config dests =>
    simp only [engine_step] at h
    split at h
    · rename_i t r hc
      cases h
      obtain ⟨hreg1, ht, n, hn, hfree⟩ := flb_task_create_reg _ _ _ _ _ _ _ _ _ _ _ hc
      have hfresh := (task_lookup_none reg n).mp hfree
      subst hreg1
      refine ⟨?_, ?_, ?_⟩
      · rw [List.map_append, List.map_singleton]
        apply List.Nodup.append hnd (List.nodup_singleton _)
        intro a ha hb
        rw [List.mem_singleton] at hb
        rw [List.mem_map] at ha
        obtain ⟨x, hx, hxa⟩ := ha
        exact hfresh x hx (by rw [hxa, hb, hn])
      · intro x hx
        rcases List.mem_append.mp hx with hx | hx
        · exact hnat x hx
        · rw [List.mem_singleton] at hx
          exact ⟨n, by rw [hx, hn]⟩
      · intro x hx
        rcases List.mem_append.mp hx with hx | hx
        · exact hinv x hx
        · rw [List.mem_singleton] at hx
          rw [hx]; exact ht
    · cases h
      exact ⟨hnd, hnat, hinv⟩
  | dispatch task_id =>
    simp only [engine_step] at h
    split at h
    · rename_i t ht
      cases h
      exact hstore _ (dispatch_inv t (hinv t (task_lookup_some reg task_id t ht).2))
    · cases h
      exact ⟨hnd, hnat, hinv⟩
  | result word =>
    simp only [engine_step] at h
    unfold apply_result at h
    split at h
    · cases h
      exact ⟨hnd, hnat, hinv⟩
    · rename_i t ht
      split at h
      · cases h
        exact ⟨hnd, hnat, hinv⟩
      · rename_i t1 ht1
        have hinv1 := apply_update_inv cfg t t1 _ _ ht1
          (hinv t (task_lookup_some reg _ t ht).2)
        have hid1 := apply_update_id cfg t t1 _ _ ht1
        have hmem := (task_lookup_some reg _ t ht).2
        split at h
        · exact hdestroy _ _ t1 h (hstore t1 hinv1)
            (fun s hs => by
              refine ⟨by rw [task_store_ids, task_store_ids]; exact hnd, ?_, ?_⟩
              · intro x hx
                rcases task_store_mem _ s x hx with ⟨hxs, y, hy, hys⟩ | ⟨hxr, _⟩
                · obtain ⟨n, hn⟩ := (hstore t1 hinv1).2.1 y hy
                  exact ⟨n, by rw [hxs, ← hys, hn]⟩
                · exact (hstore t1 hinv1).2.1 x hxr
              · intro x hx
                rcases task_store_mem _ s x hx with ⟨hxs, _⟩ | ⟨hxr, _⟩
                · rw [hxs]; exact hs
                · exact (hstore t1 hinv1).2.2 x hxr) hinv1
        · split at h
          · cases h
            unfold task_release
            refine ⟨?_, ?_, ?_⟩
            · apply task_unlink_nodup
              rw [task_store_ids]; exact hnd
            · intro x hx
              have hx1 := task_unlink_mem _ _ x hx
              rcases task_store_mem reg _ x hx1.1 with ⟨hxt, _⟩ | ⟨hxr, _⟩
              · exact absurd (by rw [hxt]) hx1.2
              · exact hnat x hxr
            · intro x hx
              have hx1 := task_unlink_mem _ _ x hx
              rcases task_store_mem reg _ x hx1.1 with ⟨hxt, _⟩ | ⟨hxr, _⟩
              · exact absurd (by rw [hxt]) hx1.2
              · exact hinv x hxr
          · cases h
            exact hstore t1 hinv1
  | destroy task_id =>
    simp only [engine_step] at h
    split at h
    · rename_i t ht
      exact hdestroy reg reg1 t h ⟨hnd, hnat, hinv⟩ hstore
        (hinv t (task_lookup_some reg task_id t ht).2)
    · cases h
      exact ⟨hnd, hnat, hinv⟩

theorem engine_run_wf (cfg : flb_config) (ops : List engine_op) (reg : List flb_task)
    (hnd : (reg.map (fun x => x.id)).Nodup)
    (hnat : ∀ x ∈ reg, ∃ n : Nat, x.id = (n : Int))
    (hinv : ∀ x ∈ reg, x.destinations = (x.routes.length : Int)) :
    ((engine_run cfg reg ops).map (fun x => x.id)).Nodup ∧
    (∀ x ∈ engine_run cfg reg ops, ∃ n : Nat, x.id = (n : Int)) ∧
    (∀ x ∈ engine_run cfg reg ops, x.destinations = (x.routes.length : Int)) := by
  induction ops generalizing reg with
  | nil => exact ⟨hnd, hnat, hinv⟩
  | cons op ops ih =>
    simp only [engine_run]
    split
    · rename_i r hr
      obtain ⟨h1, h2, h3⟩ := engine_step_wf cfg reg r op hr hnd hnat hinv
      exact ih r h1 h2 h3
    · exact ⟨hnd, hnat, hinv⟩

theorem engine_run_wf_empty (cfg : flb_config) (ops : List engine_op) :
    ((engine_run cfg [] ops).map (fun x => x.id)).Nodup ∧
    (∀ x ∈ engine_run cfg [] ops, ∃ n : Nat, x.id = (n : Int)) ∧
    (∀ x ∈ engine_run cfg [] ops, x.destinations = (x.routes.length : Int)) :=
  engine_run_wf cfg ops [] List.nodup_nil
    (fun _ hx => absurd hx (List.not_mem_nil _))
    (fun _ hx => absurd hx (List.not_mem_nil _))

/-- C1: encoding round trip. For a result code below 16, a task id below 16384
and a thread index below 16384, decoding the word built by `FLB_TASK_SET`
gives back the three fields. -/
theorem task_set_roundtrip (c t h : Nat) (hc : c < 16) (ht : t < 16384) (hh : h < 16384) :
    FLB_TASK_RET (FLB_TASK_SET c t h) = c ∧
    FLB_TASK_ID (FLB_TASK_SET c t h) = t ∧
    FLB_TASK_TH (FLB_TASK_SET c t h) = h :=
  decode_set c t h hc ht hh

theorem task_set_roundtrip_witness :
    FLB_TASK_RET (FLB_TASK_SET 15 16383 16383) = 15 ∧
    FLB_TASK_ID (FLB_TASK_SET 15 16383 16383) = 16383 ∧
    FLB_TASK_TH (FLB_TASK_SET 15 16383 16383) = 16383 :=
  task_set_roundtrip 15 16383 16383 (by decide) (by decide) (by decide)

/-- C2: encoder layout. For in-range fields the word built by `FLB_TASK_SET`
is the untruncated `(c << 28) | (t << 14) | h`, which is the number
`c * 2^28 + t * 2^14 + h`, lies below `2^32`, and the three shifted fields
share no bit. -/
theorem task_set_layout (c t h : Nat) (hc : c < 16) (ht : t < 16384) (hh : h < 16384) :
    FLB_TASK_SET c t h = ((c <<< 28) ||| (t <<< 14) ||| h) ∧
    FLB_TASK_SET c t h = c * 2 ^ 28 + t * 2 ^ 14 + h ∧
    FLB_TASK_SET c t h < 2 ^ 32 ∧
    (c <<< 28) &&& (t <<< 14) = 0 ∧
    (c <<< 28) &&& h = 0 ∧
    (t <<< 14) &&& h = 0 := by
  have hs := set_eq c t h hc ht hh
  refine ⟨?_, hs, ?_, ?_, ?_, ?_⟩
  · rw [hs, or_eq_sum c t h ht hh]
  · rw [hs]; omega
  · apply shiftLeft_and_small
    rw [Nat.shiftLeft_eq]; omega
  · apply shiftLeft_and_small
    omega
  · apply shiftLeft_and_small
    omega

theorem task_set_layout_witness :
    FLB_TASK_SET 9 300 77 = ((9 <<< 28) ||| (300 <<< 14) ||| 77) ∧
    FLB_TASK_SET 9 300 77 = 9 * 2 ^ 28 + 300 * 2 ^ 14 + 77 ∧
    FLB_TASK_SET 9 300 77 < 2 ^ 32 ∧
    (9 <<< 28) &&& (300 <<< 14) = 0 ∧
    (9 <<< 28) &&& 77 = 0 ∧
    (300 <<< 14) &&& 77 = 0 :=
  task_set_layout 9 300 77 (by decide) (by decide) (by decide)

/-- C3: decoded fields stay in range. For every 32-bit word, valid encoding or
not, the decoded result code is below 16 and the decoded task id and thread
index are below 16384. -/
theorem task_decode_in_range (w : Nat) (hw : w < 2 ^ 32) :
    FLB_TASK_RET w < 16 ∧ FLB_TASK_ID w < 16384 ∧ FLB_TASK_TH w < 16384 :=
  decode_bounds w hw

theorem task_decode_in_range_witness :
    FLB_TASK_RET 0xffffffff < 16 ∧ FLB_TASK_ID 0xffffffff < 16384 ∧
    FLB_TASK_TH 0xffffffff < 16384 :=
  task_decode_in_range 0xffffffff (by decide)

/-- C8: the decoders select the documented bit fields. `FLB_TASK_RET` is the
quotient by `2^28`, `FLB_TASK_ID` is bits 14..27, `FLB_TASK_TH` is bits 0..13,
and the mask literal `0xfffc000` is `2^28 - 2^14`. -/
theorem task_decode_fields (w : Nat) :
    FLB_TASK_RET w = w / 2 ^ 28 ∧
    FLB_TASK_ID w = (w / 2 ^ 14) % 2 ^ 14 ∧
    FLB_TASK_TH w = w % 2 ^ 14 ∧
    (0xfffc000 : Nat) = 2 ^ 28 - 2 ^ 14 ∧
    FLB_TASK_ID w = u32 (w &&& (2 ^ 28 - 2 ^ 14)) >>> 14 :=
  ⟨ret_eq w, id_eq w, th_eq w, by decide, rfl⟩

/-- C9: the three fields partition the word. Every 32-bit word is rebuilt by
`FLB_TASK_SET` from its three decoded fields, and it is the encoding of
exactly one in-range triple. -/
theorem task_word_partition (w : Nat) (hw : w < 2 ^ 32) :
    FLB_TASK_SET (FLB_TASK_RET w) (FLB_TASK_ID w) (FLB_TASK_TH w) = w ∧
    ∃! p : Nat × Nat × Nat,
      p.1 < 16 ∧ p.2.1 < 16384 ∧ p.2.2 < 16384 ∧ FLB_TASK_SET p.1 p.2.1 p.2.2 = w := by
  obtain ⟨hr, hi, ht⟩ := decode_bounds w hw
  have hback : FLB_TASK_SET (FLB_TASK_RET w) (FLB_TASK_ID w) (FLB_TASK_TH w) = w := by
    rw [set_eq _ _ _ hr hi ht, ret_eq, id_eq, th_eq]
    omega
  refine ⟨hback, ⟨(FLB_TASK_RET w, FLB_TASK_ID w, FLB_TASK_TH w), ⟨hr, hi, ht, hback⟩, ?_⟩⟩
  rintro ⟨c, t, h⟩ ⟨hc, ht2, hh, hset⟩
  obtain ⟨e1, e2, e3⟩ := decode_set c t h hc ht2 hh
  simp only [] at hset hc ht2 hh
  rw [hset] at e1 e2 e3
  simp [e1, e2, e3]

theorem task_word_partition_witness :
    FLB_TASK_SET (FLB_TASK_RET 0x9abcdef0) (FLB_TASK_ID 0x9abcdef0)
        (FLB_TASK_TH 0x9abcdef0) = 0x9abcdef0 ∧
    ∃! p : Nat × Nat × Nat,
      p.1 < 16 ∧ p.2.1 < 16384 ∧ p.2.2 < 16384 ∧
        FLB_TASK_SET p.1 p.2.1 p.2.2 = 0x9abcdef0 :=
  task_word_partition 0x9abcdef0 (by decide)

/-- C10: `FLB_TASK_SET` neither masks nor rejects an out-of-range field. The
task id 16384 spills into the result code: `FLB_TASK_SET 0 16384 0` is the word
`0x10000000`, the same word as `FLB_TASK_SET 1 0 0`, and it decodes to result
code 1 and task id 0. -/
theorem task_set_out_of_range_alias :
    FLB_TASK_SET 0 16384 0 = 0x10000000 ∧
    FLB_TASK_SET 1 0 0 = 0x10000000 ∧
    FLB_TASK_SET 0 16384 0 = FLB_TASK_SET 1 0 0 ∧
    FLB_TASK_RET (FLB_TASK_SET 0 16384 0) = 1 ∧
    FLB_TASK_ID (FLB_TASK_SET 0 16384 0) = 0 ∧
    FLB_TASK_TH (FLB_TASK_SET 0 16384 0) = 0 := by
  decide

/-! ## Theorems on the retry queue and the task lifecycle -/

/-- C4: two calls of `flb_task_retry_create` for the same destination, on a
task that has no retry for it yet, leave exactly one retry for that
destination, with attempt count 2. The first call creates the entry with
attempt count 1, the second returns that entry incremented, and the list grows
by one entry in total. -/
theorem retry_create_twice (task : flb_task) (data : Nat)
    (hfresh : ∀ r ∈ task.retries, r.o_ins ≠ data) :
    (flb_task_retry_create task data).1 = ⟨1, data, task.id⟩ ∧
    (flb_task_retry_create task data).2.retries = task.retries ++ [⟨1, data, task.id⟩] ∧
    (flb_task_retry_create (flb_task_retry_create task data).2 data).1
      = ⟨2, data, task.id⟩ ∧
    (flb_task_retry_create (flb_task_retry_create task data).2 data).2.retries
      = task.retries ++ [⟨2, data, task.id⟩] ∧
    (flb_task_retry_create (flb_task_retry_create task data).2 data).2.retries.filter
      (fun r => decide (r.o_ins = data)) = [⟨2, data, task.id⟩] ∧
    (flb_task_retry_create (flb_task_retry_create task data).2 data).2.retries.length
      = task.retries.length + 1 := by
  have h1 : flb_task_retry_create task data =
      (⟨1, data, task.id⟩, { task with retries := task.retries ++ [⟨1, data, task.id⟩] }) := by
    simp [flb_task_retry_create, retry_increment_none data task.retries hfresh]
  have h2 : flb_task_retry_create
      { task with retries := task.retries ++ [⟨1, data, task.id⟩] } data =
      (⟨2, data, task.id⟩, { task with retries := task.retries ++ [⟨2, data, task.id⟩] }) := by
    simp [flb_task_retry_create,
      retry_increment_last data task.retries ⟨1, data, task.id⟩ hfresh rfl]
  have h3 : task.retries.filter (fun r => decide (r.o_ins = data)) = [] := by
    rw [List.filter_eq_nil_iff]
    intro r hr
    simpa using hfresh r hr
  rw [h1]
  refine ⟨rfl, rfl, ?_, ?_, ?_, ?_⟩
  · show (flb_task_retry_create _ data).1 = _
    rw [h2]
  · show (flb_task_retry_create _ data).2.retries = _
    rw [h2]
  · show (flb_task_retry_create _ data).2.retries.filter _ = _
    rw [h2]
    simp [List.filter_append, h3]
  · show (flb_task_retry_create _ data).2.retries.length = _
    rw [h2]
    simp


theorem retry_create_twice_witness :
    (flb_task_retry_create sample_retry_task 7).1 = ⟨1, 7, 3⟩ ∧
    (flb_task_retry_create sample_retry_task 7).2.retries = [⟨4, 9, 3⟩] ++ [⟨1, 7, 3⟩] ∧
    (flb_task_retry_create (flb_task_retry_create sample_retry_task 7).2 7).1 = ⟨2, 7, 3⟩ ∧
    (flb_task_retry_create (flb_task_retry_create sample_retry_task 7).2 7).2.retries
      = [⟨4, 9, 3⟩] ++ [⟨2, 7, 3⟩] ∧
    (flb_task_retry_create (flb_task_retry_create sample_retry_task 7).2 7).2.retries.filter
      (fun r => decide (r.o_ins = 7)) = [⟨2, 7, 3⟩] ∧
    (flb_task_retry_create (flb_task_retry_create sample_retry_task 7).2 7).2.retries.length
      = [(⟨4, 9, 3⟩ : flb_task_retry)].length + 1 :=
  retry_create_twice sample_retry_task 7 (by decide)

/-- C5: `flb_task_retry_clean` removes exactly the retries whose destination
is `data`: the retries left are the other entries, unchanged and in their
order, every other field of the task is untouched, and the value returned is
the number of entries removed. -/
theorem retry_clean_exact (task : flb_task) (data : Nat) :
    (flb_task_retry_clean task data).2.retries
      = task.retries.filter (fun r => decide (r.o_ins ≠ data)) ∧
    (flb_task_retry_clean task data).2
      = { task with retries := task.retries.filter (fun r => decide (r.o_ins ≠ data)) } ∧
    (flb_task_retry_clean task data).1
      = ((task.retries.filter (fun r => decide (r.o_ins = data))).length : Int) ∧
    (flb_task_retry_clean task data).1
      = (task.retries.length : Int) - (flb_task_retry_clean task data).2.retries.length := by
  have h1 := retry_clean_loop_fst data task.retries
  have h2 := retry_clean_loop_snd data task.retries
  have h3 := filter_split_length data task.retries
  refine ⟨?_, ?_, ?_, ?_⟩
  · simp [flb_task_retry_clean, h1]
  · simp [flb_task_retry_clean, h1]
  · simp [flb_task_retry_clean, h2]
  · simp only [flb_task_retry_clean, h1, h2]
    omega

/-- C6: route-count invariant. In every registry reached from the empty one by
any sequence of task creations, dispatches, applied result words (whatever
their code and indexes) and destroy calls, every live task has `destinations`
equal to the number of routes still in its routes list. -/
theorem destinations_eq_routes (cfg : flb_config) (ops : List engine_op) :
    ∀ t ∈ engine_run cfg [] ops, t.destinations = (t.routes.length : Int) :=
  (engine_run_wf_empty cfg ops).2.2

theorem destinations_eq_routes_witness :
    ∃ t : flb_task, engine_run sample_cfg [] sample_ops = [t] ∧
      t.users = 1 ∧ t.threads = [⟨0, 7⟩] ∧ t.routes = [⟨7⟩] ∧
      t.destinations = (t.routes.length : Int) := by
  refine ⟨_, rfl, by decide, by decide, by decide,
    destinations_eq_routes sample_cfg sample_ops _ (by decide)⟩

end FlbTask
